import Mathlib

/-!
Verification of the download-orchestration engine of `captube.py`.

The Python source is shallowly embedded below.  Strings are Lean `String`s
(character lists); machine integers are `Nat`/`Int` with exact arithmetic
(the CPython float division in the progress computation is idealised as
exact rational arithmetic, the idealisation the design document itself
uses when it writes `floor(100 * done / total)`).  The external media
client (pytubefix) is modelled as environment data: each item supplies
its title, its stream variants, the control-flag observations made at
each chunk checkpoint, and the possible external faults.  The Qt signal
emissions become an explicit event trace.
-/

/-! ## Python helpers -/

/-- Python truthiness-based `or` on optional byte counts: `a or b` yields
`b` when `a` is `None` or `0`, and `a` otherwise. -/
def pyOr : Option Nat → Option Nat → Option Nat
  | some n, b => if n = 0 then b else some n
  | none, b => b

/-- Python truthiness-based `or` on strings: `a or b` is `b` when `a` is
empty, else `a`. -/
def pyOrStr (a b : String) : String :=
  if a = ("") then b else a

/-- ASCII model of the characters matched by the regex class `\s`. -/
def pyIsSpace (c : Char) : Bool :=
  c = ' ' || c = '\t' || c = '\n' || c = '\r' || c = '\x0b' || c = '\x0c'

/-- The characters of the regex class `[\\/:*?"<>|]` in `sanitize_filename`. -/
def badChar (c : Char) : Bool :=
  c = '\\' || c = '/' || c = ':' || c = '*' || c = '?' || c = '\"' ||
    c = '<' || c = '>' || c = '|'

/-- Python `str.strip()`: drop leading and trailing whitespace. -/
def pyStrip (l : List Char) : List Char :=
  ((l.dropWhile pyIsSpace).reverse.dropWhile pyIsSpace).reverse

/-- Embedding of the substitution replacing each illegal character with an underscore. -/
def replaceBad (l : List Char) : List Char :=
  l.map (fun c => if badChar c then '_' else c)

/-- Embedding of the substitution turning every maximal whitespace run into one space. -/
def collapseWS : List Char → List Char
  | [] => []
  | [a] => if pyIsSpace a then [' '] else [a]
  | a :: b :: rest =>
      if pyIsSpace a then
        if pyIsSpace b then collapseWS (b :: rest)
        else ' ' :: collapseWS (b :: rest)
      else a :: collapseWS (b :: rest)

/-- Embedding of `sanitize_filename` from `captube.py`: strip, replace illegal characters,
collapse whitespace runs, truncate to 180 characters. -/
def sanitize_filename (name : String) : String :=
  String.mk ((collapseWS (replaceBad (pyStrip name.data))).take 180)

/-! ## unique_path -/

/-- The candidate path tried at loop index `n` by `unique_path`:
`"{base}.{ext}"` first, then `"{base} (idx).{ext}"` for `idx = 1, 2, ...`. -/
def mkCand (base ext : String) : Nat → String
  | 0 => base ++ (".") ++ ext
  | Nat.succ n => base ++ (" (") ++ toString (n + 1) ++ (").") ++ ext

/-- The `while candidate.exists()` loop of `unique_path`, unrolled to `fuel`
iterations; the directory contents are the finite list `fs`.  `none` means
the loop has not terminated within `fuel` steps. -/
def uniqueLoop (fs : List String) (base ext : String) : Nat → Nat → Option String
  | _, 0 => none
  | idx, Nat.succ fuel =>
      let c := mkCand base ext idx
      if c ∈ fs then uniqueLoop fs base ext (idx + 1) fuel else some c

/-- Embedding of `unique_path` from `captube.py` over a directory listing `fs`. -/
def unique_path (fs : List String) (base ext : String) (fuel : Nat) : Option String :=
  uniqueLoop fs base ext 0 fuel

/-! ## _on_progress: the percentage computation -/

/-- The effective total used by `_on_progress` line 122:
`self._current_total or stream.filesize or stream.filesize_approx`. -/
def effTotal (cached fsz fsa : Option Nat) : Option Nat :=
  pyOr (pyOr cached fsz) fsa

/-- The code's `int(max(0, min(100, (done / total) * 100)))` with exact
arithmetic: for a positive total the truncation of the clamped value is the
clamped floor of `done * 100 / total`. -/
def pctOf (t : Nat) (rem : Nat) : Int :=
  max 0 (min 100 ((((t : Int) - (rem : Int)) * 100).fdiv (t : Int)))

/-- The arithmetic part of `DownloadWorker._on_progress` (lines 122-127):
`None` when the update is suppressed (`if not total: return`), otherwise the
emitted percentage. -/
def onProgressCompute (cached fsz fsa : Option Nat) (rem : Nat) : Option Int :=
  match effTotal cached fsz fsa with
  | none => none
  | some t => if t = 0 then none else some (pctOf t rem)

/-- The percentage formula as the claim states it:
`floor(100 * (total - bytesRemaining) / total)` clamped to `[0, 100]`. -/
def claimPct (t : Nat) (rem : Nat) : Int :=
  max 0 (min 100 ((100 * ((t : Int) - (rem : Int))).fdiv (t : Int)))

/-! ## Stream variants and _select_stream -/

/-- A stream variant as the engine reads it from the external resolution
client: flags, container subtype, mime type, quality metrics and optional
byte sizes. -/
structure StreamVariant where
  progressive : Bool
  only_audio : Bool
  only_video : Bool
  subtype : String
  mime_type : String
  resolution : Nat
  abr : Nat
  filesize : Option Nat
  filesize_approx : Option Nat
deriving DecidableEq

/-- Modelled from the design document (§4.2): the external stream query's
`order_by(metric).desc().first()` returns the first-encountered variant of
maximal metric, or `none` on an empty set. -/
def pickBest (key : StreamVariant → Nat) : List StreamVariant → Option StreamVariant
  | [] => none
  | v :: rest =>
      match pickBest key rest with
      | none => some v
      | some w => if key v < key w then some w else some v

/-- Embedding of `DownloadWorker._select_stream` from `captube.py` (lines 129-175). -/
def select_stream (mode : String) (streams : List StreamVariant) : Option StreamVariant :=
  if mode = ("full") then
    match pickBest (fun v => v.resolution)
        (streams.filter (fun v => v.progressive && v.subtype == ("mp4"))) with
    | some s => some s
    | none => pickBest (fun v => v.resolution) (streams.filter (fun v => v.progressive))
  else if mode = ("audio") then
    pickBest (fun v => v.abr) (streams.filter (fun v => v.only_audio))
  else if mode = ("video_only") then
    pickBest (fun v => v.resolution) (streams.filter (fun v => v.only_video))
  else none

/-- Extension resolution of `_download_one` lines 190-193: the stream's
subtype if truthy, else the last segment of the mime type, else `"mp4"`. -/
def getExt (st : StreamVariant) : String :=
  if st.subtype = ("") then
    if st.mime_type.contains '/' then ((st.mime_type.splitOn ("/")).getLastD (""))
    else ("mp4")
  else st.subtype

/-! ## Cooperative control signal -/

/-- The pair of flags of `DownloadWorker`: `pause_event` and `cancel_event`. -/
structure ControlSignal where
  paused : Bool
  cancelled : Bool
deriving DecidableEq

/-- The operations the control thread can apply: `cancel()` (line 101) and
`toggle_pause()` (line 105).  No code path ever clears `cancel_event`. -/
inductive CtlOp
  | cancel
  | togglePause
deriving DecidableEq

/-- Effect of one control operation on the flags. -/
def applyOp (s : ControlSignal) : CtlOp → ControlSignal
  | CtlOp.cancel => ⟨s.paused, true⟩
  | CtlOp.togglePause => ⟨!s.paused, s.cancelled⟩

/-- Effect of a sequence of control operations. -/
def applyOps (s : ControlSignal) : List CtlOp → ControlSignal
  | [] => s
  | op :: rest => applyOps (applyOp s op) rest

/-! ## Orchestration: events and environments -/

/-- The Qt signals of `DownloadWorker` as trace events. -/
inductive Ev
  | progress (pct : Int)
  | status (msg : String)
  | itemDone (title path : String)
  | finishedOk
  | finishedCancel
  | error (msg : String)
deriving DecidableEq

/-- Outcome of one chunk checkpoint of `_on_progress` (lines 113-120) as the
execution thread observes the shared flags: the pause wait ended with
`cancel_event` set, the post-wait check saw `cancel_event` set, or neither. -/
inductive ChunkCtl
  | cancelInPause
  | cancelAtCheck
  | proceed
deriving DecidableEq

/-- One chunk callback: the control observation plus `bytes_remaining`. -/
structure Chunk where
  ctl : ChunkCtl
  bytesRemaining : Nat
deriving DecidableEq

/-- Environment of one `_download_one` call: what the external client and the
shared flags supply.  `fetchFault` models `YouTube(link)` raising;
`transferFault` models a transfer-level fault from `stream.download` after
the chunk callbacks; `cancelledAtStart` is the value of `cancel_event`
observed by `_iter_playlist` just before this item. -/
structure ItemEnv where
  ytTitle : String
  streams : List StreamVariant
  chunks : List Chunk
  fetchFault : Option String
  transferFault : Option String
  fsDir : List String
  cancelledAtStart : Bool
deriving DecidableEq

/-- Result of a worker phase: normal return, a raised exception message, or
divergence (a loop that never terminates, hence no further events). -/
inductive DlRes
  | ok
  | exc (msg : String)
  | hang
deriving DecidableEq

/-- The chunk-callback loop driven by `stream.download`: each chunk first
passes the pause/cancel checkpoints (raising on cancellation) and then emits
the computed progress event, if any. -/
def runChunks (cur fsz fsa : Option Nat) : List Chunk → List Ev × Option String
  | [] => ([], none)
  | c :: rest =>
      match c.ctl with
      | ChunkCtl.cancelInPause => ([], some ("Cancelado durante pausa."))
      | ChunkCtl.cancelAtCheck => ([], some ("Cancelado pelo usuário."))
      | ChunkCtl.proceed =>
          let evs :=
            match onProgressCompute cur fsz fsa c.bytesRemaining with
            | some p => [Ev.progress p]
            | none => []
          let r := runChunks cur fsz fsa rest
          (evs ++ r.1, r.2)

/-- The `title` variable of `_download_one` line 183, namely the sanitized title. -/
def itemTitle (it : ItemEnv) : String :=
  sanitize_filename (pyOrStr it.ytTitle ("video"))

/-- First argument of `item_done.emit` (line 207): `yt.title or title`. -/
def dispTitle (it : ItemEnv) : String :=
  pyOrStr it.ytTitle (itemTitle it)

/-- The output path `_download_one` resolves for an item (empty when no
stream is selected or the path loop does not finish). -/
def itemOutPath (mode : String) (it : ItemEnv) : String :=
  match select_stream mode it.streams with
  | none => ("")
  | some st =>
      (unique_path it.fsDir (itemTitle it) (getExt st) (it.fsDir.length + 1)).getD ("")

/-- Embedding of `DownloadWorker._download_one` (lines 177-207) as a trace function:
returns the events it emits and how it returns. -/
def download_one (mode : String) (it : ItemEnv) : List Ev × DlRes :=
  match it.fetchFault with
  | some m => ([], DlRes.exc m)
  | none =>
    match select_stream mode it.streams with
    | none =>
        ([], DlRes.exc ("Não foi possível encontrar um stream compatível para esse modo."))
    | some st =>
        match unique_path it.fsDir (itemTitle it) (getExt st) (it.fsDir.length + 1) with
        | none => ([], DlRes.hang)
        | some outPath =>
            let cur := pyOr st.filesize st.filesize_approx
            let pre := Ev.status (("Iniciando: ") ++ it.ytTitle)
            let cr := runChunks cur st.filesize st.filesize_approx it.chunks
            match cr.2 with
            | some m => (pre :: cr.1, DlRes.exc m)
            | none =>
                match it.transferFault with
                | some m => (pre :: cr.1, DlRes.exc m)
                | none =>
                    (pre :: cr.1 ++ [Ev.progress 100, Ev.itemDone (dispTitle it) outPath],
                      DlRes.ok)

/-- Embedding of `DownloadWorker._iter_playlist` (lines 209-220): increment the counter,
check `cancel_event` (breaking if set), emit the status line, download the
item, and stop on any raised exception. -/
def iter_playlist (mode : String) : List ItemEnv → Nat → Nat → List Ev × DlRes
  | [], _, _ => ([], DlRes.ok)
  | it :: rest, count, total =>
      if it.cancelledAtStart then ([], DlRes.ok)
      else
        let pre := Ev.status (("Baixando item ") ++ toString (count + 1) ++ ("/") ++ toString total)
        match download_one mode it with
        | (evs, DlRes.ok) =>
            let r := iter_playlist mode rest (count + 1) total
            (pre :: evs ++ r.1, r.2)
        | (evs, e) => (pre :: evs, e)

/-- Environment of one `DownloadWorker.run` call.  `playlist` is the result
of the `Playlist(self.url)` probe: `none` when the constructor raises,
otherwise the ordered item environments; `single` is the item environment
reached through the original identifier on the single-item path;
`cancelAtEnd` is the value of `cancel_event` observed at line 246. -/
structure RunEnv where
  mode : String
  single : ItemEnv
  playlist : Option (List ItemEnv)
  cancelAtEnd : Bool
deriving DecidableEq

/-- Lines 246-253 of `run`: a raised exception becomes the `error` terminal
event; a normal return becomes `finished_with_cancel` or `finished_ok`
according to `cancel_event`. -/
def finalizeRun (p : List Ev × DlRes) (cancelAtEnd : Bool) : Option (List Ev) :=
  match p.2 with
  | DlRes.hang => none
  | DlRes.exc m => some (p.1 ++ [Ev.error m])
  | DlRes.ok =>
      some (p.1 ++ [if cancelAtEnd then Ev.finishedCancel else Ev.finishedOk])

/-- The single-item path of `run`: `_download_one(self.url)` then the
terminal classification. -/
def runSingle (mode : String) (it : ItemEnv) (cancelAtEnd : Bool) : Option (List Ev) :=
  finalizeRun (download_one mode it) cancelAtEnd

/-- Embedding of `DownloadWorker.run` (lines 222-253): probe for a playlist, iterate it
when it yields at least one item, otherwise take the single-item path, and
classify the outcome.  `none` means the run never reaches a terminal event. -/
def worker_run (env : RunEnv) : Option (List Ev) :=
  match env.playlist with
  | some items =>
      if 0 < items.length then
        let pr := iter_playlist env.mode items 0 items.length
        finalizeRun (Ev.status ("Detectada playlist. Preparando itens...") :: pr.1, pr.2)
          env.cancelAtEnd
      else runSingle env.mode env.single env.cancelAtEnd
  | none => runSingle env.mode env.single env.cancelAtEnd

/-- Holds exactly on an `itemDone` event. -/
def isItemDoneEv : Ev → Bool
  | Ev.itemDone _ _ => true
  | _ => false

/-- Holds exactly on the terminal events `finished_ok`,
`finished_with_cancel` and `error`. -/
def isTerminalEv : Ev → Bool
  | Ev.finishedOk => true
  | Ev.finishedCancel => true
  | Ev.error _ => true
  | _ => false

/-- The `item_done` event a successful `_download_one` emits for an item. -/
def itemDoneEv (mode : String) (it : ItemEnv) : Ev :=
  Ev.itemDone (dispTitle it) (itemOutPath mode it)

/-! ## Helper lemmas -/

theorem uniqueLoop_sound (fs : List String) (base ext : String) :
    ∀ fuel idx r, uniqueLoop fs base ext idx fuel = some r → r ∉ fs := by
  intro fuel
  induction fuel with
  | zero => intro idx r h; cases h
  | succ n ih =>
      intro idx r h
      unfold uniqueLoop at h
      by_cases hc : mkCand base ext idx ∈ fs
      · rw [if_pos hc] at h
        exact ih (idx + 1) r h
      · rw [if_neg hc] at h
        cases h
        exact hc

theorem uniqueLoop_exact (fs : List String) (base ext : String) (N : Nat)
    (hmem : ∀ i, i ≤ N → (mkCand base ext i ∈ fs ↔ i < N)) :
    ∀ fuel idx, idx ≤ N → N - idx < fuel →
      uniqueLoop fs base ext idx fuel = some (mkCand base ext N) := by
  intro fuel
  induction fuel with
  | zero => intro idx _ h; omega
  | succ n ih =>
      intro idx hidx hlt
      unfold uniqueLoop
      by_cases he : idx = N
      · subst he
        have : mkCand base ext idx ∉ fs := by
          intro hin
          exact absurd ((hmem idx (Nat.le_refl idx)).mp hin) (Nat.lt_irrefl idx)
        rw [if_neg this]
      · have hlt' : idx < N := Nat.lt_of_le_of_ne hidx he
        have : mkCand base ext idx ∈ fs := (hmem idx hidx).mpr hlt'
        rw [if_pos this]
        exact ih (idx + 1) hlt' (by omega)

theorem pickBest_exists (key : StreamVariant → Nat) (a : StreamVariant)
    (rest : List StreamVariant) : ∃ w, pickBest key (a :: rest) = some w := by
  unfold pickBest
  cases pickBest key rest with
  | none => exact ⟨a, rfl⟩
  | some w =>
      by_cases h : key a < key w
      · exact ⟨w, by dsimp only; rw [if_pos h]⟩
      · exact ⟨a, by dsimp only; rw [if_neg h]⟩

theorem pickBest_mem (key : StreamVariant → Nat) :
    ∀ l v, pickBest key l = some v → v ∈ l := by
  intro l
  induction l with
  | nil => intro v h; cases h
  | cons a rest ih =>
      intro v h
      unfold pickBest at h
      cases hr : pickBest key rest with
      | none =>
          rw [hr] at h
          cases h
          exact List.mem_cons_self a rest
      | some w =>
          rw [hr] at h
          dsimp only at h
          by_cases hk : key a < key w
          · rw [if_pos hk] at h
            cases h
            exact List.mem_cons_of_mem a (ih v hr)
          · rw [if_neg hk] at h
            cases h
            exact List.mem_cons_self a rest

theorem pickBest_max (key : StreamVariant → Nat) :
    ∀ l v, pickBest key l = some v → ∀ u ∈ l, key u ≤ key v := by
  intro l
  induction l with
  | nil => intro v h; cases h
  | cons a rest ih =>
      intro v h u hu
      unfold pickBest at h
      cases hr : pickBest key rest with
      | none =>
          rw [hr] at h
          cases h
          cases List.mem_cons.mp hu with
          | inl he => rw [he]
          | inr hm =>
              cases rest with
              | nil => cases hm
              | cons b rs =>
                  obtain ⟨w, hw⟩ := pickBest_exists key b rs
                  rw [hw] at hr
                  cases hr
      | some w =>
          rw [hr] at h
          dsimp only at h
          have hrest : ∀ u ∈ rest, key u ≤ key w := ih w hr
          by_cases hk : key a < key w
          · rw [if_pos hk] at h
            cases h
            cases List.mem_cons.mp hu with
            | inl he => rw [he]; exact Nat.le_of_lt hk
            | inr hm => exact hrest u hm
          · rw [if_neg hk] at h
            cases h
            cases List.mem_cons.mp hu with
            | inl he => rw [he]
            | inr hm => exact Nat.le_trans (hrest u hm) (Nat.le_of_not_lt hk)

/-! ## Claims about the leaf components -/

/-- Claim C9: once the `cancelled` flag of the control signal is true, no
sequence of control operations ever makes it false again, while
`toggle_pause` flips the `paused` flag and leaves `cancelled` unchanged. -/
theorem c9_cancel_monotone (s : ControlSignal) (ops : List CtlOp) :
    (s.cancelled = true → (applyOps s ops).cancelled = true) ∧
    ((applyOp s CtlOp.togglePause).paused = !s.paused ∧
      (applyOp s CtlOp.togglePause).cancelled = s.cancelled) := by
  refine ⟨?_, rfl, rfl⟩
  induction ops generalizing s with
  | nil => intro h; exact h
  | cons op rest ih =>
      intro h
      cases op with
      | cancel => exact ih ⟨s.paused, true⟩ rfl
      | togglePause => exact ih ⟨!s.paused, s.cancelled⟩ h

/-- Witness for C9 at a concrete cancelled state and operation sequence. -/
theorem c9_cancel_monotone_witness :
    ((⟨false, true⟩ : ControlSignal).cancelled = true) ∧
    (applyOps ⟨false, true⟩ [CtlOp.togglePause, CtlOp.cancel, CtlOp.togglePause]).cancelled
      = true :=
  ⟨rfl, (c9_cancel_monotone ⟨false, true⟩
    [CtlOp.togglePause, CtlOp.cancel, CtlOp.togglePause]).1 rfl⟩

/-- Claim C10: when the effective total is a known zero (or unknown), the
progress update is suppressed, and a percentage is only ever emitted with a
strictly positive divisor. -/
theorem c10_zero_total_suppressed (cached fsz fsa : Option Nat) (rem : Nat) :
    ((effTotal cached fsz fsa = some 0 ∨ effTotal cached fsz fsa = none) →
        onProgressCompute cached fsz fsa rem = none) ∧
    (∀ p : Int, onProgressCompute cached fsz fsa rem = some p →
        ∃ t : Nat, effTotal cached fsz fsa = some t ∧ 0 < t) := by
  constructor
  · rintro (h | h) <;> simp [onProgressCompute, h]
  · intro p hp
    unfold onProgressCompute at hp
    cases het : effTotal cached fsz fsa with
    | none => rw [het] at hp; cases hp
    | some t =>
        rw [het] at hp
        dsimp only at hp
        by_cases ht : t = 0
        · rw [if_pos ht] at hp; cases hp
        · exact ⟨t, rfl, Nat.pos_of_ne_zero ht⟩

/-- Witness for C10: a known total of 0 bytes (not merely unknown) yields a
suppressed update. -/
theorem c10_zero_total_suppressed_witness :
    (effTotal none (some 0) (some 0) = some 0 ∨ effTotal none (some 0) (some 0) = none) ∧
    onProgressCompute none (some 0) (some 0) 5 = none :=
  ⟨Or.inl (by decide),
    (c10_zero_total_suppressed none (some 0) (some 0) 5).1 (Or.inl (by decide))⟩

/-- Claim C4: with no known total the chunk update is suppressed; every
emitted percentage equals the clamped floor formula
`floor(100 * (total - bytesRemaining) / total)` for the effective total and
lies within `[0, 100]`. -/
theorem c4_progress_formula (cached fsz fsa : Option Nat) (rem : Nat) :
    ((cached = none ∧ fsz = none ∧ fsa = none) →
        onProgressCompute cached fsz fsa rem = none) ∧
    (∀ p : Int, onProgressCompute cached fsz fsa rem = some p →
        (∃ t : Nat, effTotal cached fsz fsa = some t ∧ 0 < t ∧ p = claimPct t rem) ∧
          0 ≤ p ∧ p ≤ 100) := by
  constructor
  · rintro ⟨h1, h2, h3⟩
    subst h1; subst h2; subst h3
    rfl
  · intro p hp
    unfold onProgressCompute at hp
    cases het : effTotal cached fsz fsa with
    | none => rw [het] at hp; cases hp
    | some t =>
        rw [het] at hp
        dsimp only at hp
        by_cases ht : t = 0
        · rw [if_pos ht] at hp; cases hp
        · rw [if_neg ht] at hp
          cases hp
          have hform : pctOf t rem = claimPct t rem := by
            unfold pctOf claimPct
            rw [mul_comm ((t : Int) - (rem : Int)) 100]
          refine ⟨⟨t, rfl, Nat.pos_of_ne_zero ht, hform⟩, ?_, ?_⟩
          · unfold pctOf
            omega
          · unfold pctOf
            omega

/-- Witness for C4: a concrete emission (total 200 bytes, 50 remaining)
yields 75, matching the clamped floor formula and the bounds. -/
theorem c4_progress_formula_witness :
    onProgressCompute (some 200) none none 50 = some 75 ∧
    ((∃ t : Nat, effTotal (some 200) none none = some t ∧ 0 < t ∧
        (75 : Int) = claimPct t 50) ∧ (0 : Int) ≤ 75 ∧ (75 : Int) ≤ 100) :=
  ⟨by decide, (c4_progress_formula (some 200) none none 50).2 75 (by decide)⟩

/-- Claim C7: whenever the `unique_path` loop returns, the returned path is
not in the directory listing; and when exactly the first `N` candidates
already exist, the returned path is the `(N+1)`-th candidate. -/
theorem c7_unique_path (fs : List String) (base ext : String) (fuel : Nat) :
    (∀ r, unique_path fs base ext fuel = some r → r ∉ fs) ∧
    (∀ N, (∀ i, i ≤ N → (mkCand base ext i ∈ fs ↔ i < N)) → N < fuel →
        unique_path fs base ext fuel = some (mkCand base ext N)) := by
  constructor
  · intro r h
    exact uniqueLoop_sound fs base ext fuel 0 r h
  · intro N hm hf
    exact uniqueLoop_exact fs base ext N hm fuel 0 (Nat.zero_le N) (by omega)

/-- Witness for C7: a directory that already holds `My Video.mp4` makes the
next download resolve to `My Video (1).mp4`. -/
theorem c7_unique_path_witness :
    (∀ i, i ≤ 1 → (mkCand ("My Video") ("mp4") i ∈ [("My Video.mp4")] ↔ i < 1)) ∧
    unique_path [("My Video.mp4")] ("My Video") ("mp4") 3
      = some (mkCand ("My Video") ("mp4") 1) :=
  ⟨by decide, (c7_unique_path [("My Video.mp4")] ("My Video") ("mp4") 3).2 1
    (by decide) (by decide)⟩

/-! ## Claim C5: the FULL profile selector -/

/-- Scenario variant: progressive MP4 480p. -/
def demoP480 : StreamVariant := ⟨true, false, false, ("mp4"), ("video/mp4"), 480, 0, none, none⟩

/-- Scenario variant: progressive MP4 720p. -/
def demoP720 : StreamVariant := ⟨true, false, false, ("mp4"), ("video/mp4"), 720, 0, none, none⟩

/-- Scenario variant: video-only 1080p. -/
def demoV1080 : StreamVariant := ⟨false, false, true, ("mp4"), ("video/mp4"), 1080, 0, none, none⟩

theorem select_full_eq (variants : List StreamVariant) :
    select_stream ("full") variants =
      match pickBest (fun v => v.resolution)
          (variants.filter (fun v => v.progressive && v.subtype == ("mp4"))) with
      | some s => some s
      | none =>
          pickBest (fun v => v.resolution) (variants.filter (fun v => v.progressive)) := by
  unfold select_stream
  rw [if_pos rfl]

/-- Claim C5: with profile FULL, the selector returns a progressive MP4
variant of maximal resolution if one exists, else a progressive variant of
maximal resolution in any container, else none; in particular the scenario
[progressive MP4 480p, progressive MP4 720p, video-only 1080p] yields the
720p progressive MP4. -/
theorem c5_select_full (variants : List StreamVariant) :
    ((∃ v ∈ variants, v.progressive = true ∧ v.subtype = ("mp4")) →
        ∃ w, select_stream ("full") variants = some w ∧ w ∈ variants ∧
          w.progressive = true ∧ w.subtype = ("mp4") ∧
          ∀ u ∈ variants, u.progressive = true → u.subtype = ("mp4") →
            u.resolution ≤ w.resolution) ∧
    ((¬ ∃ v ∈ variants, v.progressive = true ∧ v.subtype = ("mp4")) →
        (∃ v ∈ variants, v.progressive = true) →
        ∃ w, select_stream ("full") variants = some w ∧ w ∈ variants ∧
          w.progressive = true ∧
          ∀ u ∈ variants, u.progressive = true → u.resolution ≤ w.resolution) ∧
    ((¬ ∃ v ∈ variants, v.progressive = true) → select_stream ("full") variants = none) ∧
    select_stream ("full") [demoP480, demoP720, demoV1080] = some demoP720 := by
  have hmem1 : ∀ v : StreamVariant,
      v ∈ variants.filter (fun v => v.progressive && v.subtype == ("mp4")) ↔
        v ∈ variants ∧ v.progressive = true ∧ v.subtype = ("mp4") := by
    intro v
    simp [List.mem_filter]
  have hmem2 : ∀ v : StreamVariant,
      v ∈ variants.filter (fun v => v.progressive) ↔
        v ∈ variants ∧ v.progressive = true := by
    intro v
    simp [List.mem_filter]
  refine ⟨?_, ?_, ?_, by decide⟩
  · rintro ⟨v, hv, hp, hs⟩
    have hv1 : v ∈ variants.filter (fun v => v.progressive && v.subtype == ("mp4")) :=
      (hmem1 v).mpr ⟨hv, hp, hs⟩
    cases hl : variants.filter (fun v => v.progressive && v.subtype == ("mp4")) with
    | nil => rw [hl] at hv1; cases hv1
    | cons a rest =>
        obtain ⟨w, hw⟩ := pickBest_exists (fun v => v.resolution) a rest
        have hsel : select_stream ("full") variants = some w := by
          rw [select_full_eq, hl, hw]
        have hwf : w ∈ variants.filter (fun v => v.progressive && v.subtype == ("mp4")) := by
          rw [hl]
          exact pickBest_mem (fun v => v.resolution) (a :: rest) w hw
        have hwmem := (hmem1 w).mp hwf
        refine ⟨w, hsel, hwmem.1, hwmem.2.1, hwmem.2.2, ?_⟩
        intro u hu hup hus
        have hu1 : u ∈ a :: rest := by
          rw [← hl]
          exact (hmem1 u).mpr ⟨hu, hup, hus⟩
        exact pickBest_max (fun v => v.resolution) (a :: rest) w hw u hu1
  · intro hno hex
    have hl1 : variants.filter (fun v => v.progressive && v.subtype == ("mp4")) = [] := by
      rw [List.filter_eq_nil_iff]
      intro a ha hpa
      refine hno ⟨a, ha, ?_⟩
      simpa using hpa
    obtain ⟨v, hv, hp⟩ := hex
    have hv2 : v ∈ variants.filter (fun v => v.progressive) := (hmem2 v).mpr ⟨hv, hp⟩
    cases hl : variants.filter (fun v => v.progressive) with
    | nil => rw [hl] at hv2; cases hv2
    | cons a rest =>
        obtain ⟨w, hw⟩ := pickBest_exists (fun v => v.resolution) a rest
        have hsel : select_stream ("full") variants = some w := by
          rw [select_full_eq, hl1]
          simp only [pickBest]
          rw [hl, hw]
        have hwf : w ∈ variants.filter (fun v => v.progressive) := by
          rw [hl]
          exact pickBest_mem (fun v => v.resolution) (a :: rest) w hw
        have hwmem := (hmem2 w).mp hwf
        refine ⟨w, hsel, hwmem.1, hwmem.2, ?_⟩
        intro u hu hup
        have hu1 : u ∈ a :: rest := by
          rw [← hl]
          exact (hmem2 u).mpr ⟨hu, hup⟩
        exact pickBest_max (fun v => v.resolution) (a :: rest) w hw u hu1
  · intro hno
    have hl1 : variants.filter (fun v => v.progressive && v.subtype == ("mp4")) = [] := by
      rw [List.filter_eq_nil_iff]
      intro a ha hpa
      refine hno ⟨a, ha, ?_⟩
      simp at hpa
      exact hpa.1
    have hl2 : variants.filter (fun v => v.progressive) = [] := by
      rw [List.filter_eq_nil_iff]
      intro a ha hpa
      exact hno ⟨a, ha, hpa⟩
    rw [select_full_eq, hl1]
    simp only [pickBest]
    rw [hl2]
    rfl

/-- Witness for C5 at the scenario variant set. -/
theorem c5_select_full_witness :
    (∃ v ∈ [demoP480, demoP720, demoV1080], v.progressive = true ∧ v.subtype = ("mp4")) ∧
    (∃ w, select_stream ("full") [demoP480, demoP720, demoV1080] = some w ∧
      w ∈ [demoP480, demoP720, demoV1080] ∧ w.progressive = true ∧ w.subtype = ("mp4") ∧
      ∀ u ∈ [demoP480, demoP720, demoV1080], u.progressive = true → u.subtype = ("mp4") →
        u.resolution ≤ w.resolution) :=
  ⟨by decide, (c5_select_full [demoP480, demoP720, demoV1080]).1 (by decide)⟩

/-! ## Claim C6: sanitize_filename -/

theorem mem_collapseWS : ∀ (l : List Char) (c : Char), c ∈ collapseWS l → c = ' ' ∨ c ∈ l
  | [], c, hc => by cases hc
  | [a], c, hc => by
      unfold collapseWS at hc
      by_cases ha : pyIsSpace a
      · rw [if_pos ha] at hc
        cases hc with
        | head => exact Or.inl rfl
        | tail _ h => cases h
      · rw [if_neg ha] at hc
        cases hc with
        | head => exact Or.inr (List.mem_cons_self a [])
        | tail _ h => cases h
  | a :: b :: rest, c, hc => by
      unfold collapseWS at hc
      by_cases ha : pyIsSpace a
      · rw [if_pos ha] at hc
        by_cases hb : pyIsSpace b
        · rw [if_pos hb] at hc
          rcases mem_collapseWS (b :: rest) c hc with h | h
          · exact Or.inl h
          · exact Or.inr (List.mem_cons_of_mem a h)
        · rw [if_neg hb] at hc
          cases hc with
          | head => exact Or.inl rfl
          | tail _ h =>
              rcases mem_collapseWS (b :: rest) c h with h2 | h2
              · exact Or.inl h2
              · exact Or.inr (List.mem_cons_of_mem a h2)
      · rw [if_neg ha] at hc
        cases hc with
        | head => exact Or.inr (List.mem_cons_self a (b :: rest))
        | tail _ h =>
            rcases mem_collapseWS (b :: rest) c h with h2 | h2
            · exact Or.inl h2
            · exact Or.inr (List.mem_cons_of_mem a h2)

theorem collapseWS_head_ws : ∀ (l : List Char) (c : Char),
    (collapseWS l).head? = some c → pyIsSpace c = true →
    ∃ d, l.head? = some d ∧ pyIsSpace d = true
  | [], c, h, _ => by cases h
  | [a], c, h, hws => by
      by_cases ha : pyIsSpace a
      · exact ⟨a, rfl, ha⟩
      · unfold collapseWS at h
        rw [if_neg ha, List.head?_cons] at h
        cases h
        exact absurd hws ha
  | a :: b :: rest, c, h, hws => by
      by_cases ha : pyIsSpace a
      · exact ⟨a, rfl, ha⟩
      · unfold collapseWS at h
        rw [if_neg ha, List.head?_cons] at h
        cases h
        exact absurd hws ha

theorem chain_collapseWS :
    ∀ l : List Char,
      List.Chain' (fun x y => ¬(pyIsSpace x = true ∧ pyIsSpace y = true)) (collapseWS l)
  | [] => List.chain'_nil
  | [a] => by
      unfold collapseWS
      by_cases ha : pyIsSpace a
      · rw [if_pos ha]
        exact List.chain'_singleton ' '
      · rw [if_neg ha]
        exact List.chain'_singleton a
  | a :: b :: rest => by
      unfold collapseWS
      by_cases ha : pyIsSpace a
      · rw [if_pos ha]
        by_cases hb : pyIsSpace b
        · rw [if_pos hb]
          exact chain_collapseWS (b :: rest)
        · rw [if_neg hb]
          rw [List.chain'_cons']
          refine ⟨?_, chain_collapseWS (b :: rest)⟩
          intro y hy hcon
          obtain ⟨d, hd, hdws⟩ :=
            collapseWS_head_ws (b :: rest) y (Option.mem_def.mp hy) hcon.2
          rw [List.head?_cons] at hd
          cases hd
          exact absurd hdws hb
      · rw [if_neg ha]
        rw [List.chain'_cons']
        refine ⟨?_, chain_collapseWS (b :: rest)⟩
        intro y _ hcon
        exact ha hcon.1

/-- Claim C6: for every title containing characters illegal in file names,
the sanitized name contains none of them, has no two adjacent whitespace
characters (every whitespace run collapsed to one space), and is at most
180 characters long. -/
theorem c6_sanitize (s : String) (h : ∃ c ∈ s.data, badChar c = true) :
    (∀ c ∈ (sanitize_filename s).data, badChar c = false) ∧
    List.Chain' (fun x y => ¬(pyIsSpace x = true ∧ pyIsSpace y = true))
      (sanitize_filename s).data ∧
    (sanitize_filename s).data.length ≤ 180 := by
  have hdata : (sanitize_filename s).data
      = (collapseWS (replaceBad (pyStrip s.data))).take 180 := rfl
  refine ⟨?_, ?_, ?_⟩
  · intro c hc
    rw [hdata] at hc
    have hc2 := List.mem_of_mem_take hc
    rcases mem_collapseWS _ c hc2 with he | hm
    · rw [he]
      rfl
    · unfold replaceBad at hm
      obtain ⟨d, _, hd⟩ := List.mem_map.mp hm
      by_cases hb : badChar d
      · rw [if_pos hb] at hd
        rw [← hd]
        rfl
      · rw [if_neg hb] at hd
        rw [← hd]
        exact Bool.eq_false_iff.mpr hb
  · rw [hdata]
    exact List.Chain'.prefix (chain_collapseWS _) ( List.take_prefix 180 _)
  · rw [hdata]
    exact List.length_take_le 180 _

/-- Witness for C6 at a concrete title containing an illegal character. -/
theorem c6_sanitize_witness :
    (∃ c ∈ ("a<b" : String).data, badChar c = true) ∧
    ((∀ c ∈ (sanitize_filename ("a<b")).data, badChar c = false) ∧
      List.Chain' (fun x y => ¬(pyIsSpace x = true ∧ pyIsSpace y = true))
        (sanitize_filename ("a<b")).data ∧
      (sanitize_filename ("a<b")).data.length ≤ 180) :=
  ⟨by decide, c6_sanitize ("a<b") (by decide)⟩

/-! ## Orchestration lemmas -/

theorem runChunks_progress (cur fsz fsa : Option Nat) :
    ∀ (l : List Chunk) (ev : Ev), ev ∈ (runChunks cur fsz fsa l).1 →
      ∃ p, ev = Ev.progress p := by
  intro l
  induction l with
  | nil => intro ev h; cases h
  | cons c rest ih =>
      intro ev h
      unfold runChunks at h
      cases hc : c.ctl with
      | cancelInPause => rw [hc] at h; cases h
      | cancelAtCheck => rw [hc] at h; cases h
      | proceed =>
          rw [hc] at h
          dsimp only at h
          rcases List.mem_append.mp h with h1 | h2
          · cases ho : onProgressCompute cur fsz fsa c.bytesRemaining with
            | none => rw [ho] at h1; cases h1
            | some p =>
                rw [ho] at h1
                cases h1 with
                | head => exact ⟨p, rfl⟩
                | tail _ hx => cases hx
          · exact ih ev h2

theorem download_one_shape (mode : String) (it : ItemEnv) :
    ((download_one mode it).1 = [] ∧ (download_one mode it).2 ≠ DlRes.ok) ∨
    (∃ cevs, (∀ ev ∈ cevs, ∃ p, ev = Ev.progress p) ∧
      (((download_one mode it).1
            = Ev.status (("Iniciando: ") ++ it.ytTitle) :: cevs ∧
          (download_one mode it).2 ≠ DlRes.ok) ∨
        ((download_one mode it).1
            = Ev.status (("Iniciando: ") ++ it.ytTitle)
                :: (cevs ++ [Ev.progress 100, itemDoneEv mode it]) ∧
          (download_one mode it).2 = DlRes.ok))) := by
  cases hf : it.fetchFault with
  | some m =>
      have heq : download_one mode it = ([], DlRes.exc m) := by
        unfold download_one
        rw [hf]
      rw [heq]
      exact Or.inl ⟨rfl, by intro h; cases h⟩
  | none =>
      cases hsel : select_stream mode it.streams with
      | none =>
          have heq : download_one mode it
              = ([], DlRes.exc
                  ("Não foi possível encontrar um stream compatível para esse modo.")) := by
            unfold download_one
            rw [hf]
            dsimp only
            rw [hsel]
          rw [heq]
          exact Or.inl ⟨rfl, by intro h; cases h⟩
      | some st =>
          cases hup : unique_path it.fsDir (itemTitle it) (getExt st) (it.fsDir.length + 1) with
          | none =>
              have heq : download_one mode it = ([], DlRes.hang) := by
                unfold download_one
                rw [hf]
                dsimp only
                rw [hsel]
                dsimp only
                rw [hup]
              rw [heq]
              exact Or.inl ⟨rfl, by intro h; cases h⟩
          | some outPath =>
              have hout : itemOutPath mode it = outPath := by
                unfold itemOutPath
                rw [hsel]
                dsimp only
                rw [hup]
                rfl
              cases hcr : (runChunks (pyOr st.filesize st.filesize_approx)
                  st.filesize st.filesize_approx it.chunks).2 with
              | some m =>
                  have heq : download_one mode it
                      = (Ev.status (("Iniciando: ") ++ it.ytTitle)
                          :: (runChunks (pyOr st.filesize st.filesize_approx)
                              st.filesize st.filesize_approx it.chunks).1,
                        DlRes.exc m) := by
                    unfold download_one
                    rw [hf]
                    dsimp only
                    rw [hsel]
                    dsimp only
                    rw [hup]
                    dsimp only
                    rw [hcr]
                  rw [heq]
                  refine Or.inr ⟨_, ?_, Or.inl ⟨rfl, by intro h; cases h⟩⟩
                  exact runChunks_progress _ _ _ it.chunks
              | none =>
                  cases htf : it.transferFault with
                  | some m =>
                      have heq : download_one mode it
                          = (Ev.status (("Iniciando: ") ++ it.ytTitle)
                              :: (runChunks (pyOr st.filesize st.filesize_approx)
                                  st.filesize st.filesize_approx it.chunks).1,
                            DlRes.exc m) := by
                        unfold download_one
                        rw [hf]
                        dsimp only
                        rw [hsel]
                        dsimp only
                        rw [hup]
                        dsimp only
                        rw [hcr]
                        dsimp only
                        rw [htf]
                      rw [heq]
                      refine Or.inr ⟨_, ?_, Or.inl ⟨rfl, by intro h; cases h⟩⟩
                      exact runChunks_progress _ _ _ it.chunks
                  | none =>
                      have heq : download_one mode it
                          = (Ev.status (("Iniciando: ") ++ it.ytTitle)
                              :: ((runChunks (pyOr st.filesize st.filesize_approx)
                                  st.filesize st.filesize_approx it.chunks).1
                                ++ [Ev.progress 100, Ev.itemDone (dispTitle it) outPath]),
                            DlRes.ok) := by
                        unfold download_one
                        rw [hf]
                        dsimp only
                        rw [hsel]
                        dsimp only
                        rw [hup]
                        dsimp only
                        rw [hcr]
                        dsimp only
                        rw [htf]
                        dsimp only
                        rfl
                      rw [heq]
                      refine Or.inr ⟨(runChunks (pyOr st.filesize st.filesize_approx)
                          st.filesize st.filesize_approx it.chunks).1,
                        runChunks_progress _ _ _ it.chunks, Or.inr ⟨?_, rfl⟩⟩
                      unfold itemDoneEv
                      rw [hout]

theorem dl_terminal_free (mode : String) (it : ItemEnv) :
    ∀ ev ∈ (download_one mode it).1, isTerminalEv ev = false := by
  intro ev hev
  rcases download_one_shape mode it with ⟨hnil, _⟩ | ⟨cevs, hprog, ⟨heq, _⟩ | ⟨heq, _⟩⟩
  · rw [hnil] at hev
    cases hev
  · rw [heq] at hev
    cases hev with
    | head => rfl
    | tail _ hx =>
        obtain ⟨p, hp⟩ := hprog ev hx
        rw [hp]
        rfl
  · rw [heq] at hev
    cases hev with
    | head => rfl
    | tail _ hx =>
        rcases List.mem_append.mp hx with h1 | h2
        · obtain ⟨p, hp⟩ := hprog ev h1
          rw [hp]
          rfl
        · cases h2 with
          | head => rfl
          | tail _ h3 =>
              cases h3 with
              | head => rfl
              | tail _ h4 => cases h4

theorem dl_filter_terminal (mode : String) (it : ItemEnv) :
    (download_one mode it).1.filter isTerminalEv = [] := by
  rw [List.filter_eq_nil_iff]
  intro a ha
  rw [dl_terminal_free mode it a ha]
  exact Bool.false_ne_true

theorem dl_ok_filter_done (mode : String) (it : ItemEnv)
    (hok : (download_one mode it).2 = DlRes.ok) :
    (download_one mode it).1.filter isItemDoneEv = [itemDoneEv mode it] := by
  rcases download_one_shape mode it with ⟨_, hne⟩ | ⟨cevs, hprog, ⟨_, hne⟩ | ⟨heq, _⟩⟩
  · exact absurd hok hne
  · exact absurd hok hne
  · rw [heq]
    have h1 : cevs.filter isItemDoneEv = [] := by
      rw [List.filter_eq_nil_iff]
      intro a ha
      obtain ⟨p, hp⟩ := hprog a ha
      rw [hp]
      exact Bool.false_ne_true
    rw [List.filter_cons_of_neg (by exact Bool.false_ne_true), List.filter_append, h1]
    simp [itemDoneEv, isItemDoneEv, List.filter]


theorem iter_playlist_all_ok (mode : String) :
    ∀ (items : List ItemEnv) (count total : Nat),
      (∀ it ∈ items, it.cancelledAtStart = false ∧ (download_one mode it).2 = DlRes.ok) →
      (iter_playlist mode items count total).2 = DlRes.ok ∧
      (iter_playlist mode items count total).1.filter isItemDoneEv
          = items.map (itemDoneEv mode) ∧
      (iter_playlist mode items count total).1.filter isTerminalEv = [] := by
  intro items
  induction items with
  | nil => intro count total _; exact ⟨rfl, rfl, rfl⟩
  | cons it rest ih =>
      intro count total hall
      have hit := hall it (List.mem_cons_self it rest)
      have hrest := fun x hx => hall x (List.mem_cons_of_mem it hx)
      obtain ⟨h2, hdone, hterm⟩ := ih (count + 1) total hrest
      have h0 : ¬(it.cancelledAtStart = true) := by
        rw [hit.1]
        exact Bool.false_ne_true
      have hpair : download_one mode it = ((download_one mode it).1, DlRes.ok) := by
        rw [← hit.2]
      have hstep : iter_playlist mode (it :: rest) count total
          = (Ev.status (("Baixando item ") ++ toString (count + 1) ++ ("/") ++ toString total)
              :: ((download_one mode it).1 ++ (iter_playlist mode rest (count + 1) total).1),
            (iter_playlist mode rest (count + 1) total).2) := by
        conv_lhs => unfold iter_playlist
        rw [if_neg h0, hpair]
        dsimp only
        rfl
      refine ⟨?_, ?_, ?_⟩
      · rw [hstep]
        exact h2
      · rw [hstep]
        rw [List.filter_cons_of_neg (by exact Bool.false_ne_true), List.filter_append,
          dl_ok_filter_done mode it hit.2, hdone]
        rfl
      · rw [hstep]
        rw [List.filter_cons_of_neg (by exact Bool.false_ne_true), List.filter_append,
          dl_filter_terminal mode it, hterm]
        rfl

/-! ## Claims about the orchestrator -/

/-- Single-item environment in which the user pauses mid-transfer and then
cancels while paused: the first chunk checkpoint observes the cancellation
inside the pause wait. -/
def cancelPausedItem : ItemEnv :=
  ⟨("vid"), [demoP720], [⟨ChunkCtl.cancelInPause, 500⟩], none, none, [], false⟩

/-- The run for `cancelPausedItem`; `cancel_event` is set at the end. -/
def cancelPausedEnv : RunEnv := ⟨("full"), cancelPausedItem, none, true⟩

/-- Claim C1 is violated by the code: when cancellation is observed while
the transfer is paused, the raised abort escapes to the generic handler of
`run`, so the run terminates with the `error` terminal event carrying the
cancellation message, not with `finished_with_cancel`. -/
theorem c1_cancel_while_paused_yields_error :
    worker_run cancelPausedEnv
        = some [Ev.status ("Iniciando: vid"), Ev.error ("Cancelado durante pausa.")] ∧
    Ev.finishedCancel
        ∉ [Ev.status ("Iniciando: vid"), Ev.error ("Cancelado durante pausa.")] := by
  exact ⟨by decide, by decide⟩

/-- Single-item environment in which cancellation was requested before the
item started: the very first chunk checkpoint observes `cancel_event`. -/
def preCancelledItem : ItemEnv :=
  ⟨("vid"), [demoP720], [⟨ChunkCtl.cancelAtCheck, 500⟩], none, none, [], true⟩

/-- The run for `preCancelledItem`. -/
def preCancelledEnv : RunEnv := ⟨("full"), preCancelledItem, none, true⟩

/-- Claim C2 is violated by the code on the single-item path: with
cancellation requested before the item starts, no item-completed event is
emitted (that half holds), but the terminal event is `error`, not
`finished_with_cancel`, because the single-item path has no pre-item
cancellation checkpoint and the abort raised at the first chunk checkpoint
reaches the generic exception handler. -/
theorem c2_precancel_single_yields_error :
    worker_run preCancelledEnv
        = some [Ev.status ("Iniciando: vid"), Ev.error ("Cancelado pelo usuário.")] ∧
    ([Ev.status ("Iniciando: vid"),
        Ev.error ("Cancelado pelo usuário.")]).filter isItemDoneEv = [] ∧
    Ev.finishedCancel
        ∉ [Ev.status ("Iniciando: vid"), Ev.error ("Cancelado pelo usuário.")] := by
  exact ⟨by decide, by decide, by decide⟩

/-- Claim C3: a collection whose downloads all succeed with no cancellation
emits exactly the collection's item-completed events in order, followed by
one `finished_ok` terminal event, which is the last event of the run. -/
theorem c3_collection_success (env : RunEnv) (items : List ItemEnv)
    (hpl : env.playlist = some items) (hne : 0 < items.length)
    (hok : ∀ it ∈ items,
      it.cancelledAtStart = false ∧ (download_one env.mode it).2 = DlRes.ok)
    (hce : env.cancelAtEnd = false) :
    ∃ tr, worker_run env = some tr ∧
      tr.filter isItemDoneEv = items.map (itemDoneEv env.mode) ∧
      tr.getLast? = some Ev.finishedOk ∧
      tr.filter isTerminalEv = [Ev.finishedOk] := by
  obtain ⟨h2, hdone, hterm⟩ := iter_playlist_all_ok env.mode items 0 items.length hok
  refine ⟨Ev.status ("Detectada playlist. Preparando itens...")
      :: ((iter_playlist env.mode items 0 items.length).1 ++ [Ev.finishedOk]), ?_, ?_, ?_, ?_⟩
  · unfold worker_run
    rw [hpl]
    dsimp only
    rw [if_pos hne]
    unfold finalizeRun
    dsimp only
    rw [h2]
    dsimp only
    rw [hce]
    rfl
  · rw [List.filter_cons_of_neg (by exact Bool.false_ne_true), List.filter_append, hdone]
    have hlast : ([Ev.finishedOk]).filter isItemDoneEv = [] := rfl
    rw [hlast, List.append_nil]
  · rw [← List.cons_append]
    exact List.getLast?_concat _
  · rw [List.filter_cons_of_neg (by exact Bool.false_ne_true), List.filter_append, hterm]
    rfl

/-- A collection item whose download succeeds. -/
def plItemA : ItemEnv := ⟨("a"), [demoP720], [⟨ChunkCtl.proceed, 400⟩], none, none, [], false⟩

/-- A one-item collection run with no cancellation. -/
def plEnv : RunEnv := ⟨("full"), plItemA, some [plItemA], false⟩

/-- Witness for C3 at a concrete one-item collection. -/
theorem c3_collection_success_witness :
    ∃ tr, worker_run plEnv = some tr ∧
      tr.filter isItemDoneEv = ([plItemA]).map (itemDoneEv plEnv.mode) ∧
      tr.getLast? = some Ev.finishedOk ∧
      tr.filter isTerminalEv = [Ev.finishedOk] :=
  c3_collection_success plEnv [plItemA] rfl (by decide) (by decide) rfl

/-- Claim C8: when the playlist probe fails or yields zero items, the run is
exactly the single-item run on the original identifier, and that fallback
itself produces no `error` terminal event (the run only fails later if the
single item itself fails). -/
theorem c8_not_collection_falls_back (env : RunEnv)
    (h : env.playlist = none ∨ env.playlist = some []) :
    worker_run env = runSingle env.mode env.single env.cancelAtEnd ∧
    ((download_one env.mode env.single).2 = DlRes.ok →
        ∀ m tr, worker_run env = some tr → Ev.error m ∉ tr) := by
  have hrun : worker_run env = runSingle env.mode env.single env.cancelAtEnd := by
    rcases h with h | h
    · unfold worker_run
      rw [h]
    · unfold worker_run
      rw [h]
      rfl
  refine ⟨hrun, ?_⟩
  intro hok m tr htr
  rw [hrun] at htr
  unfold runSingle finalizeRun at htr
  rw [hok] at htr
  dsimp only at htr
  cases htr
  intro hmem
  rcases List.mem_append.mp hmem with h1 | h2
  · have hfree := dl_terminal_free env.mode env.single (Ev.error m) h1
    simp [isTerminalEv] at hfree
  · cases hce : env.cancelAtEnd with
    | true =>
        rw [hce] at h2
        simp at h2
    | false =>
        rw [hce] at h2
        simp at h2

/-- A successful single item for the C8 witness. -/
def singleOkItem : ItemEnv := ⟨("a"), [demoP720], [], none, none, [], false⟩

/-- A run whose playlist probe raises, for the C8 witness. -/
def notCollectionEnv : RunEnv := ⟨("full"), singleOkItem, none, false⟩

/-- Witness for C8: a failed collection probe falls back to a clean
single-item run with no error event. -/
theorem c8_not_collection_falls_back_witness :
    (notCollectionEnv.playlist = none ∨ notCollectionEnv.playlist = some []) ∧
    worker_run notCollectionEnv
        = runSingle notCollectionEnv.mode notCollectionEnv.single
            notCollectionEnv.cancelAtEnd ∧
    Ev.error ("boom") ∉ [Ev.status ("Iniciando: a"), Ev.progress 100,
      Ev.itemDone ("a") ("a.mp4"), Ev.finishedOk] :=
  ⟨Or.inl rfl, (c8_not_collection_falls_back notCollectionEnv (Or.inl rfl)).1,
    (c8_not_collection_falls_back notCollectionEnv (Or.inl rfl)).2 (by decide) ("boom")
      [Ev.status ("Iniciando: a"), Ev.progress 100,
        Ev.itemDone ("a") ("a.mp4"), Ev.finishedOk] (by decide)⟩
